import Mathlib

/-!
Verification of the tumblr-utils incremental backup orchestrator.

This file gives a shallow embedding, in Lean 4, of the parts of the
repository that the specification claims talk about:

* the durable write protocol `open_outfile` (src/tumblr_utils/utils/__init__.py)
  and the completion-marker write in `TumblrBackup.backup.build_index`
  (src/tumblr_backup.py);
* `maybe_copy_media` (src/tumblr_backup.py);
* the per-batch processing loop `TumblrBackup.backup._backup` and the
  page-to-page update of the `before` bound (src/tumblr_backup.py);
* the replay branch of `ApiParser.apiparse` (src/tumblr_utils/api_parser.py);
* the option reconciliation and resume-cursor computation in
  `TumblrBackup.process_existing_backup` and `TumblrBackup.backup`
  (src/tumblr_backup.py);
* the worker loop `ThreadPool.handler` (src/tumblr_utils/threading.py) and
  `TumblrPost.save_post` (src/tumblr_utils/posts/tumblr.py);
* the rate-limit handler `ApiParser._ratelimit_sleep`
  (src/tumblr_utils/api_parser.py);
* the media download deduplication protocol `TumblrPost.download_media`
  (src/tumblr_utils/posts/tumblr.py), as a transition system.

Machine integers do not overflow in the modelled code (Python integers are
unbounded), so integer fields are `Int`/`Nat`.  Fallible code is modelled
with `Except`/`Option`.
-/

/-! ## The durable write protocol (claim C1)

`open_outfile.__init__` creates a named temporary file next to the
destination; the body writes the content; `open_outfile.__exit__` either
rolls back (on an exception: close and unlink the temporary file) or
commits (fchmod to 0644, flush, fsync, then `os.replace` onto the final
path).  The completion marker, by contrast, is written by `build_index`
directly at its final path: `open(open_file(lambda f: f, ('.complete',)), 'wb')`
surrounded by `fdatasync` of the directory and `fsync` of the file.
We model both as traces of file-system operations over a two-file state
(the final path and its temporary sibling). -/

/-- One file-system operation performed by the save paths of the program. -/
inductive FsOp where
  | createTemp
  | writeTemp (content : String)
  | chmodTemp
  | flushTemp
  | fsyncTemp
  | closeTemp
  | unlinkTemp
  | renameTempToFinal
  | openFinalDirect
  | fsyncFinal
  | fsyncDir
  deriving DecidableEq

/-- The empty content of a file opened for writing and never written to. -/
def emptyContent : String := ""

/-- Contents visible at the destination path and at its temporary sibling. -/
structure FsState where
  final : Option String
  temp : Option String
  deriving DecidableEq

/-- Effect of one operation on the two paths. -/
def applyFsOp (s : FsState) : FsOp → FsState
  | FsOp.createTemp => { s with temp := some emptyContent }
  | FsOp.writeTemp c => { s with temp := some c }
  | FsOp.unlinkTemp => { s with temp := none }
  | FsOp.renameTempToFinal => { final := s.temp, temp := none }
  | FsOp.openFinalDirect => { s with final := some emptyContent }
  | _ => s

/-- Run a trace of operations from an initial state. -/
def runFs (s : FsState) (t : List FsOp) : FsState := t.foldl applyFsOp s

/-- Trace of `open_outfile` writing `c`, from `__init__` through `__exit__`;
`exc` tells whether the body raised an exception (`exc_type is not None`). -/
def open_outfile_trace (c : String) (exc : Bool) : List FsOp :=
  [FsOp.createTemp, FsOp.writeTemp c] ++
    (if exc then [FsOp.closeTemp, FsOp.unlinkTemp]
     else [FsOp.chmodTemp, FsOp.flushTemp, FsOp.fsyncTemp, FsOp.closeTemp,
           FsOp.renameTempToFinal])

/-- Trace of the completion-marker write in `build_index` (POSIX branch):
fdatasync the directory, create `.complete` empty directly at its final
path, fsync it, fdatasync the directory again. -/
def complete_marker_trace : List FsOp :=
  [FsOp.fsyncDir, FsOp.openFinalDirect, FsOp.fsyncFinal, FsOp.fsyncDir]

/-! ## maybe_copy_media (claim C10)

`maybe_copy_media` returns False when there is no previous archive or the
source file is absent, True without touching the destination when the
destination already exists, and otherwise copies the source onto the
destination (through `open_outfile`) and returns True.  We model the
previous archive as `Option (Option String)`: `none` means no previous
archive was given, `some none` means the archive exists but the source
file does not, `some (some c)` means the source file has content `c`.
The destination is the content currently at the destination path. -/

/-- Model of `maybe_copy_media`: returns the Python result and the new
content of the destination path. -/
def maybe_copy_media (prev_archive : Option (Option String)) (dst : Option String) :
    Bool × Option String :=
  match prev_archive with
  | none => (false, dst)
  | some none => (false, dst)
  | some (some srcContent) =>
    match dst with
    | some _ => (true, dst)
    | none => (true, some srcContent)

/-! ## Theorems for claims C1 and C10 -/

/-- C1 (amended): `open_outfile` writes the content to a temporary sibling,
then (in source order) chmods it to 0644, flushes, fsyncs, and atomically
renames it onto the final path; on an exception the temporary file is
unlinked and the final path is unchanged; no prefix of either trace ever
shows anything at the final path but its initial content or the complete
new content.  The completion marker is the exception to the protocol: it
is created empty directly at its final path (fsynced together with its
directory) and goes through no temporary file. -/
theorem open_outfile_atomic (c : String) (init : FsState) :
    open_outfile_trace c false
      = [FsOp.createTemp, FsOp.writeTemp c, FsOp.chmodTemp, FsOp.flushTemp,
         FsOp.fsyncTemp, FsOp.closeTemp, FsOp.renameTempToFinal] ∧
    open_outfile_trace c true
      = [FsOp.createTemp, FsOp.writeTemp c, FsOp.closeTemp, FsOp.unlinkTemp] ∧
    runFs init (open_outfile_trace c false) = { final := some c, temp := none } ∧
    runFs init (open_outfile_trace c true) = { final := init.final, temp := none } ∧
    (∀ (exc : Bool) (n : Nat),
      (runFs init ((open_outfile_trace c exc).take n)).final = init.final ∨
      (runFs init ((open_outfile_trace c exc).take n)).final = some c) ∧
    runFs init complete_marker_trace = { final := some emptyContent, temp := init.temp } := by
  refine ⟨rfl, rfl, rfl, rfl, ?_, rfl⟩
  intro exc n
  cases exc with
  | false =>
    rcases n with _ | _ | _ | _ | _ | _ | _ | k
    · exact Or.inl rfl
    · exact Or.inl rfl
    · exact Or.inl rfl
    · exact Or.inl rfl
    · exact Or.inl rfl
    · exact Or.inl rfl
    · exact Or.inl rfl
    · right
      rw [List.take_of_length_le (by simp [open_outfile_trace])]
      rfl
  | true =>
    rcases n with _ | _ | _ | _ | k
    · exact Or.inl rfl
    · exact Or.inl rfl
    · exact Or.inl rfl
    · exact Or.inl rfl
    · left
      rw [List.take_of_length_le (by simp [open_outfile_trace])]
      rfl

/-- C1 counterexample: the completion marker is persisted with no temporary
sibling file and no atomic rename; its final path is opened for writing
directly, contradicting the claim that every persisted file (the completion
marker included) is first written to a temporary sibling and then renamed
onto the final path. -/
theorem complete_marker_not_atomic :
    FsOp.renameTempToFinal ∉ complete_marker_trace ∧
    FsOp.createTemp ∉ complete_marker_trace ∧
    FsOp.openFinalDirect ∈ complete_marker_trace ∧
    (∀ c, FsOp.fsyncTemp ∉ complete_marker_trace ∧ FsOp.writeTemp c ∉ complete_marker_trace) := by
  refine ⟨by decide, by decide, by decide, ?_⟩
  intro c
  refine ⟨by decide, ?_⟩
  simp [complete_marker_trace]

/-- C10 counterexample: with no previous archive and an existing
destination file, `maybe_copy_media` returns False (the `prev_archive is
None` early return fires before the destination is even examined),
contradicting the claim that every call with an existing destination
returns True. -/
theorem maybe_copy_media_false_on_existing_dst :
    maybe_copy_media none (some ("old")) = (false, some ("old")) ∧
    (maybe_copy_media none (some ("old"))).1 ≠ true := by
  exact ⟨rfl, by decide⟩

/-- C10 (amended): `maybe_copy_media` never modifies an existing
destination; it returns True on an existing destination only when a
previous archive with an existing source was given (the archive and
source checks come first and return False otherwise); a copy happens
only when the source exists and the destination does not. -/
theorem maybe_copy_media_no_clobber (pa : Option (Option String)) (dst : Option String) :
    (∀ d, dst = some d → (maybe_copy_media pa dst).2 = some d) ∧
    (∀ d s, dst = some d → pa = some (some s) → maybe_copy_media pa dst = (true, some d)) ∧
    (pa = none → maybe_copy_media pa dst = (false, dst)) ∧
    (pa = some none → maybe_copy_media pa dst = (false, dst)) ∧
    ((maybe_copy_media pa dst).2 ≠ dst →
      dst = none ∧ ∃ s, pa = some (some s) ∧ maybe_copy_media pa dst = (true, some s)) := by
  rcases pa with _ | _ | s <;> rcases dst with _ | d <;>
    simp [maybe_copy_media]

/-- Witness for C10 at concrete inputs: an existing destination is kept
when a source is available, and a missing previous archive copies
nothing. -/
theorem maybe_copy_media_no_clobber_witness :
    maybe_copy_media (some (some ("src"))) (some ("old")) = (true, some ("old")) ∧
    maybe_copy_media none none = (false, none) :=
  ⟨(maybe_copy_media_no_clobber (some (some ("src"))) (some ("old"))).2.1 ("old") ("src") rfl rfl,
   (maybe_copy_media_no_clobber none none).2.2.1 rfl⟩

/-! ## Post records and the per-batch loop (claims C2 and C6)

`TumblrBackup.backup._backup` sorts the fetched batch with
`sorted(posts, key=sort_key, reverse=True)` where the key is
`liked_timestamp` in likes mode and the numeric id otherwise, then runs the
per-post checks in source order.  `post.date` is `liked_timestamp` in likes
mode and `timestamp` otherwise.  Python sorting is stable, so the sort is
modelled with the stable `List.insertionSort`.  The externally supplied
predicates (`post_is_reblog` from the is_reblog module, the compiled jq
filter, and the file-existence probe) are parameters of the configuration. -/

/-- A raw post record, with the fields the driver loop reads. -/
structure Post where
  id : Nat
  timestamp : Int
  liked_timestamp : Int
  typ : String
  tags : List String
  deriving DecidableEq

/-- MAX_POSTS from tumblr_backup/consts.py. -/
def MAX_POSTS : Nat := 50

/-- TAG_ANY from tumblr_backup/consts.py. -/
def TAG_ANY : String := "__all__"

/-- Sort key of `_backup`: `liked_timestamp` in likes mode, the numeric id
otherwise. -/
def sort_key (likes : Bool) (p : Post) : Int :=
  if likes then p.liked_timestamp else (p.id : Int)

/-- The `date` attribute of a constructed post: `liked_timestamp` in likes
mode, `timestamp` otherwise. -/
def post_date (likes : Bool) (p : Post) : Int :=
  if likes then p.liked_timestamp else p.timestamp

/-- Descending-key comparison used for the batch sort. -/
def key_ge (likes : Bool) (a b : Post) : Prop :=
  sort_key likes b ≤ sort_key likes a

instance (likes : Bool) : DecidableRel (key_ge likes) :=
  fun a b => inferInstanceAs (Decidable (sort_key likes b ≤ sort_key likes a))

instance (likes : Bool) : IsTotal Post (key_ge likes) :=
  ⟨fun a b => le_total (sort_key likes b) (sort_key likes a)⟩

instance (likes : Bool) : IsTrans Post (key_ge likes) :=
  ⟨fun _ _ _ h1 h2 => le_trans h2 h1⟩

/-- Model of `sorted(posts, key=sort_key, reverse=True)`: a stable
descending sort by the key. -/
def sortPosts (likes : Bool) (posts : List Post) : List Post :=
  List.insertionSort (key_ge likes) posts

/-- Configuration visible to `_backup`: options and the state of the
enclosing `backup` call.  External predicates are parameters. -/
structure BackupCfg where
  likes : Bool
  dashboard_only_blog : Bool
  ident_max : Option Int
  period : Option (Int × Int)
  next_ident : Option Nat
  request_sets : Option (List (String × List String))
  no_reblog : Bool
  only_reblog : Bool
  jq_filter : Option (Post → Bool)
  no_post_clobber : Bool
  post_exists : Post → Bool
  post_is_reblog : Post → Bool
  count : Option Nat

/-- Result of the per-post checks of `_backup` on one post. -/
inductive StepRes where
  | skipPost
  | filterSkipPost
  | enqueuePost
  | stopBatch
  | fatalDate
  deriving DecidableEq

/-- The type and tag request check (`options.request`): the post passes if
its type is requested with TAG_ANY or with one of its lowercased tags. -/
def request_check (rs : List (String × List String)) (p : Post) : Bool :=
  match rs.lookup p.typ with
  | none => false
  | some tags =>
    decide (TAG_ANY ∈ tags) || tags.any (fun t => (p.tags.map String.toLower).contains t)

/-- The per-post checks of `_backup`, in source order: the date-vs-before
invariant check (fatal, or an early continue on a dashboard-only blog);
the incremental stop; the period-end stop; the explicit-id mismatch stop;
the request filter; the reblog filters; the jq filter (counted as filtered
out); the no-clobber check. -/
def post_checks (cfg : BackupCfg) (before : Option Int) (p : Post) : StepRes :=
  if (match before with
      | some b => decide (post_date cfg.likes p ≥ b)
      | none => false) then
    (if cfg.dashboard_only_blog then StepRes.skipPost else StepRes.fatalDate)
  else if (match cfg.ident_max with
      | some m => decide (sort_key cfg.likes p ≤ m)
      | none => false) then StepRes.stopBatch
  else if (match cfg.period with
      | some pr => decide (post_date cfg.likes p < pr.1)
      | none => false) then StepRes.stopBatch
  else if (match cfg.next_ident with
      | some nid => decide (p.id ≠ nid)
      | none => false) then StepRes.stopBatch
  else if (match cfg.request_sets with
      | some rs => decide (rs ≠ []) && ! request_check rs p
      | none => false) then StepRes.skipPost
  else if cfg.no_reblog && cfg.post_is_reblog p then StepRes.skipPost
  else if cfg.only_reblog && ! cfg.post_is_reblog p then StepRes.skipPost
  else if (match cfg.jq_filter with
      | some f => ! f p
      | none => false) then StepRes.filterSkipPost
  else if cfg.post_exists p && cfg.no_post_clobber then StepRes.skipPost
  else StepRes.enqueuePost

/-- Truthiness of `options.count and self.post_count >= options.count`. -/
def count_reached (count : Option Nat) (n : Nat) : Bool :=
  match count with
  | some c => decide (c ≠ 0) && decide (n ≥ c)
  | none => false

/-- Outcome of `_backup` on one batch: a fatal date-invariant error
(carrying the offending date and the bound), or the returned pair
(res, oldest_date) together with the posts enqueued in order and the
filtered-out tally. -/
inductive BatchOutcome where
  | fatal (date bound : Int)
  | done (res : Bool) (oldest_date : Option Int) (saved : List Post) (filter_skipped : Nat)
  deriving DecidableEq

/-- The body of the `for p in sorted(posts, ...)` loop of `_backup`:
`n` is `self.post_count`, `fskip` is `self.filter_skipped`, `oldest` the
running `oldest_date`, `saved` the posts enqueued so far. -/
def backupPosts (cfg : BackupCfg) (before : Option Int) :
    List Post → Nat → Nat → Option Int → List Post → BatchOutcome
  | [], _, fskip, oldest, saved => BatchOutcome.done true oldest saved fskip
  | p :: rest, n, fskip, _oldest, saved =>
    let d := post_date cfg.likes p
    match post_checks cfg before p with
    | StepRes.fatalDate => BatchOutcome.fatal d (before.getD 0)
    | StepRes.stopBatch => BatchOutcome.done false (some d) saved fskip
    | StepRes.skipPost => backupPosts cfg before rest n fskip (some d) saved
    | StepRes.filterSkipPost => backupPosts cfg before rest n (fskip + 1) (some d) saved
    | StepRes.enqueuePost =>
      if count_reached cfg.count (n + 1) then
        BatchOutcome.done false (some d) (saved ++ [p]) fskip
      else backupPosts cfg before rest (n + 1) fskip (some d) (saved ++ [p])

/-- Model of `_backup posts`: sort the batch descending by key, then run
the per-post checks, starting from the current post count. -/
def _backup (cfg : BackupCfg) (before : Option Int) (post_count : Nat)
    (posts : List Post) : BatchOutcome :=
  backupPosts cfg before (sortPosts cfg.likes posts) post_count 0 none []

/-- Model of `assert oldest_date <= before` followed by the tie decrement
and the assignment `before = oldest_date` (tumblr_backup.py lines 972-975). -/
def update_before (b : Int) (oldest_date : Int) : Except String Int :=
  if oldest_date ≤ b then
    Except.ok (if oldest_date = b then oldest_date - 1 else oldest_date)
  else Except.error ("assertion failed: oldest_date <= before")

/-- The page-to-page update of `before` in the driver loop (lines 965-975):
in likes mode the bound comes from the next-page link; otherwise, when a
bound is set and the blog is not dashboard-only, the bound is tightened to
the returned oldest_date via `update_before`. -/
def driver_update_before (likes dashboard : Bool) (next_before : Option Int)
    (before : Option Int) (oldest_date : Option Int) : Except String (Option Int) :=
  if likes then Except.ok next_before
  else
    match before with
    | none => Except.ok none
    | some b =>
      if dashboard then Except.ok (some b)
      else
        match oldest_date with
        | none => Except.error ("oldest_date is None")
        | some d => (update_before b d).map some

/-! ## Lemmas and theorems for claims C2 and C6 -/

/-- With a bound set and a non-dashboard blog, any post whose checks do not
end in the fatal date error has date strictly below the bound (the date
check is the first check). -/
theorem post_checks_date_lt (cfg : BackupCfg) (b : Int) (p : Post)
    (hd : cfg.dashboard_only_blog = false)
    (h : post_checks cfg (some b) p ≠ StepRes.fatalDate) :
    post_date cfg.likes p < b := by
  by_contra hge
  apply h
  have hb : b ≤ post_date cfg.likes p := le_of_not_lt hge
  simp [post_checks, hb, hd]

/-- When a batch run returns res = True, the returned oldest_date is the
date of the last post of the processed list (or the incoming value for an
empty list). -/
theorem backupPosts_true_oldest (cfg : BackupCfg) (before : Option Int) :
    ∀ (l : List Post) (n fskip : Nat) (oldest : Option Int) (saved : List Post)
      (o : Option Int) (s : List Post) (k : Nat),
      backupPosts cfg before l n fskip oldest saved = BatchOutcome.done true o s k →
      o = (match l.getLast? with
           | none => oldest
           | some p => some (post_date cfg.likes p)) := by
  intro l
  induction l with
  | nil =>
    intro n fskip oldest saved o s k h
    simp only [backupPosts, BatchOutcome.done.injEq] at h
    simp [h.2.1.symm]
  | cons p rest ih =>
    intro n fskip oldest saved o s k h
    simp only [backupPosts] at h
    split at h
    · simp at h
    · simp at h
    · have := ih n fskip (some (post_date cfg.likes p)) saved o s k h
      rcases rest with _ | ⟨q, rest⟩
      · simpa using this
      · rw [List.getLast?_cons_cons]
        simpa using this
    · have := ih n (fskip + 1) (some (post_date cfg.likes p)) saved o s k h
      rcases rest with _ | ⟨q, rest⟩
      · simpa using this
      · rw [List.getLast?_cons_cons]
        simpa using this
    · split at h
      · simp at h
      · have := ih (n + 1) fskip (some (post_date cfg.likes p)) (saved ++ [p]) o s k h
        rcases rest with _ | ⟨q, rest⟩
        · simpa using this
        · rw [List.getLast?_cons_cons]
          simpa using this

/-- When a batch run on a non-dashboard blog with bound `b` returns
res = True, every post of the processed list has date strictly below `b`. -/
theorem backupPosts_true_dates (cfg : BackupCfg) (b : Int)
    (hd : cfg.dashboard_only_blog = false) :
    ∀ (l : List Post) (n fskip : Nat) (oldest : Option Int) (saved : List Post)
      (o : Option Int) (s : List Post) (k : Nat),
      backupPosts cfg (some b) l n fskip oldest saved = BatchOutcome.done true o s k →
      ∀ p ∈ l, post_date cfg.likes p < b := by
  intro l
  induction l with
  | nil => intro n fskip oldest saved o s k h p hp; simp at hp
  | cons q rest ih =>
    intro n fskip oldest saved o s k h p hp
    simp only [backupPosts] at h
    split at h
    · simp at h
    · simp at h
    · rename_i hc
      rcases List.mem_cons.mp hp with hpq | hpr
      · subst hpq
        exact post_checks_date_lt cfg b p hd (by rw [hc]; intro hcon; cases hcon)
      · exact ih n fskip (some (post_date cfg.likes q)) saved o s k h p hpr
    · rename_i hc
      rcases List.mem_cons.mp hp with hpq | hpr
      · subst hpq
        exact post_checks_date_lt cfg b p hd (by rw [hc]; intro hcon; cases hcon)
      · exact ih n (fskip + 1) (some (post_date cfg.likes q)) saved o s k h p hpr
    · rename_i hc
      split at h
      · simp at h
      · rcases List.mem_cons.mp hp with hpq | hpr
        · subst hpq
          exact post_checks_date_lt cfg b p hd (by rw [hc]; intro hcon; cases hcon)
        · exact ih (n + 1) fskip (some (post_date cfg.likes q)) (saved ++ [q]) o s k h p hpr

/-- C2 (amended): with the `before` bound set, in non-likes non-dashboard
mode, a page processed to completion yields an oldest_date equal to the
date of the LAST post in descending-key processing order (which need not
be the minimum date on the page); that date is strictly below the bound,
so the driver update strictly decreases the bound (and the exact-tie
decrement branch of `update_before` cannot fire on such a page); a
processed post whose date reaches the bound is an immediate fatal error,
and on a dashboard-only blog such a post is instead skipped by an early
continue. -/
theorem before_bound_update (cfg : BackupCfg) (b : Int) :
    (cfg.likes = false → cfg.dashboard_only_blog = false →
      ∀ posts n o s k, posts ≠ [] →
        _backup cfg (some b) n posts = BatchOutcome.done true o s k →
        ∃ p d, (sortPosts cfg.likes posts).getLast? = some p ∧
          o = some d ∧ d = post_date cfg.likes p ∧ d < b ∧
          driver_update_before cfg.likes cfg.dashboard_only_blog none (some b) o
            = Except.ok (some d)) ∧
    (cfg.dashboard_only_blog = false →
      ∀ p rest n fskip oldest saved, post_date cfg.likes p ≥ b →
        backupPosts cfg (some b) (p :: rest) n fskip oldest saved
          = BatchOutcome.fatal (post_date cfg.likes p) b) ∧
    (cfg.dashboard_only_blog = true →
      ∀ p rest n fskip oldest saved, post_date cfg.likes p ≥ b →
        backupPosts cfg (some b) (p :: rest) n fskip oldest saved
          = backupPosts cfg (some b) rest n fskip (some (post_date cfg.likes p)) saved) := by
  refine ⟨?_, ?_, ?_⟩
  · intro hl hd posts n o s k hne hrun
    have hlen : (sortPosts cfg.likes posts).length = posts.length :=
      (List.perm_insertionSort (key_ge cfg.likes) posts).length_eq
    have hsne : sortPosts cfg.likes posts ≠ [] := by
      intro hcon
      apply hne
      apply List.eq_nil_of_length_eq_zero
      rw [← hlen, hcon]
      rfl
    rcases Option.isSome_iff_exists.mp (List.getLast?_isSome.mpr hsne) with ⟨p, hp⟩
    have ho := backupPosts_true_oldest cfg (some b) (sortPosts cfg.likes posts)
      n 0 none [] o s k hrun
    rw [hp] at ho
    have hdb : post_date cfg.likes p < b :=
      backupPosts_true_dates cfg b hd (sortPosts cfg.likes posts)
        n 0 none [] o s k hrun p (List.mem_of_getLast?_eq_some hp)
    refine ⟨p, post_date cfg.likes p, hp, ho, rfl, hdb, ?_⟩
    rw [ho, hl, hd]
    rw [hl] at hdb
    simp [driver_update_before, update_before, Except.map, le_of_lt hdb, ne_of_lt hdb]
  · intro hd p rest n fskip oldest saved hge
    have hc : post_checks cfg (some b) p = StepRes.fatalDate := by
      simp [post_checks, hd, hge]
    simp [backupPosts, hc]
  · intro hd p rest n fskip oldest saved hge
    have hc : post_checks cfg (some b) p = StepRes.skipPost := by
      simp [post_checks, hd, hge]
    simp [backupPosts, hc]

/-- A batch configuration with no filters: non-likes, non-dashboard. -/
def cfg0ex : BackupCfg where
  likes := false
  dashboard_only_blog := false
  ident_max := none
  period := none
  next_ident := none
  request_sets := none
  no_reblog := false
  only_reblog := false
  jq_filter := none
  no_post_clobber := false
  post_exists := fun _ => false
  post_is_reblog := fun _ => false
  count := none

/-- A post with the larger id but the older timestamp. -/
def p1ex : Post := { id := 5, timestamp := 100, liked_timestamp := 0, typ := "text", tags := [] }

/-- A post with the smaller id but the newer timestamp. -/
def p2ex : Post := { id := 3, timestamp := 200, liked_timestamp := 0, typ := "text", tags := [] }

/-- C2 counterexample: on the page [p1ex, p2ex] with bound 300, the driver
sets the new bound to 200 (the date of the minimum-id post, processed
last), although the oldest date seen on the page is 100: the claim that the
bound is set to the oldest post date seen on the page fails. -/
theorem before_bound_counterexample :
    _backup cfg0ex (some 300) 0 [p1ex, p2ex]
      = BatchOutcome.done true (some 200) [p1ex, p2ex] 0 ∧
    driver_update_before false false none (some 300) (some 200) = Except.ok (some 200) ∧
    p1ex ∈ [p1ex, p2ex] ∧ post_date false p1ex = 100 ∧ (100 : Int) < 200 := by
  exact ⟨by decide, by rfl, by decide, by decide, by decide⟩

/-- Witness for C2 at concrete inputs: the completed page [p1ex, p2ex]
strictly decreases the bound 300, and a single post dated 200 against
bound 100 is an immediate fatal error. -/
theorem before_bound_update_witness :
    (∃ p d, (sortPosts cfg0ex.likes [p1ex, p2ex]).getLast? = some p ∧
        (some 200 : Option Int) = some d ∧ d = post_date cfg0ex.likes p ∧ d < 300 ∧
        driver_update_before cfg0ex.likes cfg0ex.dashboard_only_blog none (some 300) (some 200)
          = Except.ok (some d)) ∧
    backupPosts cfg0ex (some 100) [p2ex] 0 0 none [] = BatchOutcome.fatal 200 100 := by
  constructor
  · exact (before_bound_update cfg0ex 300).1 rfl rfl [p1ex, p2ex] 0 (some 200) [p1ex, p2ex] 0
      (by decide) (by decide)
  · exact (before_bound_update cfg0ex 100).2.1 rfl p2ex [] 0 0 none [] (by decide)

/-- C6: the batch handed to the per-post checks is exactly the stable
descending sort of the fetched posts by the configured key: it is a
permutation of the batch, pairwise descending (no post is processed before
another post of the same page with a strictly larger key), and `_backup`
processes precisely this sorted list. -/
theorem batch_sorted_before_processing (likes : Bool) (posts : List Post) :
    (sortPosts likes posts).Perm posts ∧
    List.Pairwise (fun a b => sort_key likes b ≤ sort_key likes a) (sortPosts likes posts) ∧
    (∀ cfg before n, _backup cfg before n posts
        = backupPosts cfg before (sortPosts cfg.likes posts) n 0 none []) :=
  ⟨List.perm_insertionSort (key_ge likes) posts,
   List.sorted_insertionSort (key_ge likes) posts,
   fun _ _ _ => rfl⟩

/-! ## The replay branch of ApiParser.apiparse (claim C3)

When `prev_resps` is loaded, `apiparse` serves batches from the saved
per-post responses through a single iterator, and asserts a fixed
direction of traversal: the mode (explicit id, before cursor, or offset)
may not change once chosen, successive before cursors must strictly
decrease, and offsets must start at 0 and advance by exactly MAX_POSTS.
An `assert` failure is modelled as `Except.error`. -/

/-- The three paging modes recorded in `self._last_mode`. -/
inductive ReplayMode where
  | identMode
  | beforeMode
  | offsetMode
  deriving DecidableEq

/-- The replay-relevant state of an `ApiParser`: the remaining saved
responses (`self._prev_iter`, already sorted descending by key), the last
paging mode, and the last cursor or offset (`self._last_offset`). -/
structure ReplayState where
  prev_iter : List Post
  last_mode : Option ReplayMode
  last_offset : Option Int
  deriving DecidableEq

/-- Model of `0 if self._last_offset is None else self._last_offset + MAX_POSTS`. -/
def offset_expected (lo : Option Int) : Int :=
  match lo with
  | none => 0
  | some o => o + (MAX_POSTS : Int)

/-- Model of `self._last_offset is None or before < self._last_offset`. -/
def before_lt_last (b : Int) (lo : Option Int) : Bool :=
  match lo with
  | none => true
  | some o => decide (b < o)

/-- The replay branch of `ApiParser.apiparse` (api_parser.py lines 99-127):
check the direction assertions, consume the iterator, return the batch
(None only on an exhausted explicit-id fetch). -/
def apiparse_replay (likes : Bool) (st : ReplayState) (count : Nat) (start : Nat)
    (before : Option Int) (ident : Option Nat) :
    Except String (Option (List Post) × ReplayState) :=
  match ident with
  | some _ =>
    if st.last_mode = none ∨ st.last_mode = some ReplayMode.identMode then
      match st.prev_iter with
      | [] => Except.ok (none, { st with last_mode := some ReplayMode.identMode })
      | p :: rest =>
        Except.ok (some [p],
          { st with prev_iter := rest, last_mode := some ReplayMode.identMode })
    else Except.error ("assertion failed: last mode not in (None, ident)")
  | none =>
    match before with
    | some b =>
      if st.last_mode = none ∨ st.last_mode = some ReplayMode.beforeMode then
        if before_lt_last b st.last_offset then
          (let it := st.prev_iter.dropWhile (fun p => decide (post_date likes p ≥ b))
           Except.ok (some (it.take count),
             { prev_iter := it.drop count, last_mode := some ReplayMode.beforeMode,
               last_offset := some b }))
        else Except.error ("assertion failed: before not less than last offset")
      else Except.error ("assertion failed: last mode not in (None, before)")
    | none =>
      if st.last_mode = none ∨ st.last_mode = some ReplayMode.offsetMode then
        if (start : Int) = offset_expected st.last_offset then
          Except.ok (some (st.prev_iter.take count),
            { prev_iter := st.prev_iter.drop count, last_mode := some ReplayMode.offsetMode,
              last_offset := some (start : Int) })
        else Except.error ("assertion failed: unexpected offset")
      else Except.error ("assertion failed: last mode not in (None, offset)")

/-- An apiparse replay call ended in an assertion failure. -/
def replay_errors (x : Except String (Option (List Post) × ReplayState)) : Prop :=
  match x with
  | Except.error _ => True
  | Except.ok _ => False

/-- C3: once the replay source is paging by before cursor, a later fetch
by explicit id or by offset, or with a before cursor that does not
strictly decrease, fails an assertion; a strictly smaller cursor is
accepted; and an offset-mode fetch succeeds exactly when the mode never
was ident or before and the offset is 0 on the first call and advances by
exactly MAX_POSTS thereafter. -/
theorem replay_paging_discipline (likes : Bool) (st : ReplayState) :
    (st.last_mode = some ReplayMode.beforeMode →
      (∀ count start i,
        replay_errors (apiparse_replay likes st count start none (some i))) ∧
      (∀ count start,
        replay_errors (apiparse_replay likes st count start none none)) ∧
      (∀ count start b o, st.last_offset = some o → o ≤ b →
        replay_errors (apiparse_replay likes st count start (some b) none)) ∧
      (∀ count start b o, st.last_offset = some o → b < o →
        ¬ replay_errors (apiparse_replay likes st count start (some b) none))) ∧
    (∀ count start,
      ¬ replay_errors (apiparse_replay likes st count start none none) ↔
        ((st.last_mode = none ∨ st.last_mode = some ReplayMode.offsetMode) ∧
          (start : Int) = offset_expected st.last_offset)) := by
  constructor
  · intro h
    refine ⟨?_, ?_, ?_, ?_⟩
    · intro count start i
      simp [apiparse_replay, replay_errors, h]
    · intro count start
      simp [apiparse_replay, replay_errors, h]
    · intro count start b o ho hob
      simp [apiparse_replay, replay_errors, h, before_lt_last, ho, not_lt.mpr hob]
    · intro count start b o ho hbo
      simp [apiparse_replay, replay_errors, h, before_lt_last, ho, hbo]
  · intro count start
    simp only [apiparse_replay]
    by_cases h1 : st.last_mode = none ∨ st.last_mode = some ReplayMode.offsetMode
    · by_cases h2 : (start : Int) = offset_expected st.last_offset
      · simp [replay_errors, h1, h2]
      · simp [replay_errors, h1, h2]
    · simp [replay_errors, h1]

/-- Witness for C3 at concrete inputs: with last mode = before and last
cursor 10, an explicit-id fetch, an offset fetch, and a before fetch at 10
all fail the assertions, while a before fetch at 9 succeeds; and a fresh
offset-mode fetch succeeds exactly at offset 0. -/
theorem replay_paging_discipline_witness :
    replay_errors (apiparse_replay false
      { prev_iter := [], last_mode := some ReplayMode.beforeMode, last_offset := some 10 }
      50 0 none (some 7)) ∧
    replay_errors (apiparse_replay false
      { prev_iter := [], last_mode := some ReplayMode.beforeMode, last_offset := some 10 }
      50 0 none none) ∧
    replay_errors (apiparse_replay false
      { prev_iter := [], last_mode := some ReplayMode.beforeMode, last_offset := some 10 }
      50 0 (some 10) none) ∧
    (¬ replay_errors (apiparse_replay false
      { prev_iter := [], last_mode := some ReplayMode.beforeMode, last_offset := some 10 }
      50 0 (some 9) none)) ∧
    (¬ replay_errors (apiparse_replay false
      { prev_iter := [], last_mode := none, last_offset := none } 50 0 none none)) := by
  refine ⟨?_, ?_, ?_, ?_, ?_⟩
  · exact ((replay_paging_discipline false _).1 rfl).1 50 0 7
  · exact ((replay_paging_discipline false _).1 rfl).2.1 50 0
  · exact ((replay_paging_discipline false _).1 rfl).2.2.1 50 0 10 10 rfl le_rfl
  · exact ((replay_paging_discipline false _).1 rfl).2.2.2 50 0 9 10 rfl (by decide)
  · exact ((replay_paging_discipline false _).2 50 0).mpr ⟨Or.inl rfl, by decide⟩

/-! ## Option reconciliation (claim C4)

`process_existing_backup` loads the recorded `.first_run_options` snapshot
and first checks MUST_MATCH_OPTIONS = (likes, blosxom, dirs, hostdirs,
image_names) through `Options.differs`; any difference raises RuntimeError
before the resume / ignore_diffopt logic and before `backup` reaches
`api_parser.get_initial`, the first network request.  The remainder of
`process_existing_backup` (the BACKUP_CHANGING_OPTIONS logic and the
resume-cursor scan) runs after this check and is abstracted here as an
arbitrary `Except` computation. -/

/-- The always-must-match option values of the current invocation, plus
the two flags the claim says cannot override the check. -/
structure MMOptions where
  likes : Bool
  blosxom : Bool
  dirs : Bool
  hostdirs : Bool
  image_names : String
  resume : Bool
  ignore_diffopt : Bool
  deriving DecidableEq

/-- A first-run options snapshot: each must-match key may be absent. -/
structure MMSnapshot where
  likes : Option Bool
  blosxom : Option Bool
  dirs : Option Bool
  hostdirs : Option Bool
  image_names : Option String
  deriving DecidableEq

/-- Model of `Options.differs`: the key is absent from the snapshot, or
the saved value differs from the current one. -/
def opt_differs {α : Type} [DecidableEq α] (current : α) (saved : Option α) : Bool :=
  match saved with
  | none => true
  | some v => decide (current ≠ v)

/-- The filter of MUST_MATCH_OPTIONS through `Options.differs`, in tuple
order (likes, blosxom, dirs, hostdirs, image_names). -/
def mustmatchdiff (o : MMOptions) (f : MMSnapshot) : List String :=
  (if opt_differs o.likes f.likes then ["likes"] else []) ++
  (if opt_differs o.blosxom f.blosxom then ["blosxom"] else []) ++
  (if opt_differs o.dirs f.dirs then ["dirs"] else []) ++
  (if opt_differs o.hostdirs f.hostdirs then ["hostdirs"] else []) ++
  (if opt_differs o.image_names f.image_names then ["image_names"] else [])

/-- The always-must-match check at the top of `process_existing_backup`
(lines 597-604): with a recorded snapshot, a nonempty must-match diff
raises RuntimeError.  The resume and ignore_diffopt flags are never read. -/
def mustmatch_check (o : MMOptions) (fro : Option MMSnapshot) : Except String Unit :=
  match fro with
  | none => Except.ok ()
  | some f =>
    if mustmatchdiff o f = [] then Except.ok ()
    else Except.error ("The script was given must-match options differing from the existing backup")

/-- Network events issued by the backup prelude. -/
inductive NetEvent where
  | get_initial
  deriving DecidableEq

/-- The prefix of `TumblrBackup.backup` relevant to C4: reconciliation
(which begins with the must-match check, line 723) runs to completion
before the first network request (`api_parser.get_initial`, line 758).
`restOfReconcile` abstracts the rest of `process_existing_backup`
(lines 606-688).  Returns the network events issued and the error, if any. -/
def backup_prelude (o : MMOptions) (fro : Option MMSnapshot)
    (restOfReconcile : Except String Unit) : List NetEvent × Option String :=
  match mustmatch_check o fro with
  | Except.error e => ([], some e)
  | Except.ok () =>
    match restOfReconcile with
    | Except.error e => ([], some e)
    | Except.ok () => ([NetEvent.get_initial], none)

/-- C4: with a recorded first-run snapshot, a difference in any
always-must-match option makes the run fail during reconciliation with no
network request issued; and the outcome is the same for any other
invocation agreeing on the must-match options (in particular for any
values of the resume and ignore_diffopt flags) and for any behavior of the
rest of reconciliation. -/
theorem mustmatch_mismatch_fatal (o o2 : MMOptions) (f : MMSnapshot)
    (h1 : o.likes = o2.likes) (h2 : o.blosxom = o2.blosxom) (h3 : o.dirs = o2.dirs)
    (h4 : o.hostdirs = o2.hostdirs) (h5 : o.image_names = o2.image_names)
    (hdiff : mustmatchdiff o f ≠ []) (rest rest2 : Except String Unit) :
    (backup_prelude o (some f) rest).1 = [] ∧
    (backup_prelude o (some f) rest).2.isSome = true ∧
    (backup_prelude o2 (some f) rest2).1 = [] ∧
    (backup_prelude o2 (some f) rest2).2.isSome = true := by
  have hmm2 : mustmatchdiff o2 f = mustmatchdiff o f := by
    simp [mustmatchdiff, h1, h2, h3, h4, h5]
  have hdiff2 : mustmatchdiff o2 f ≠ [] := by
    rw [hmm2]
    exact hdiff
  refine ⟨?_, ?_, ?_, ?_⟩ <;> simp [backup_prelude, mustmatch_check, hdiff, hdiff2]

/-- Witness for C4 at concrete inputs: a snapshot recording likes = false
rejects a likes = true run with no network request, whatever the resume
and ignore_diffopt flags. -/
theorem mustmatch_mismatch_fatal_witness :
    (backup_prelude
        { likes := true, blosxom := false, dirs := false, hostdirs := false,
          image_names := "o", resume := false, ignore_diffopt := false }
        (some { likes := some false, blosxom := some false, dirs := some false,
                hostdirs := some false, image_names := some "o" })
        (Except.ok ())).1 = [] ∧
    (backup_prelude
        { likes := true, blosxom := false, dirs := false, hostdirs := false,
          image_names := "o", resume := false, ignore_diffopt := false }
        (some { likes := some false, blosxom := some false, dirs := some false,
                hostdirs := some false, image_names := some "o" })
        (Except.ok ())).2.isSome = true ∧
    (backup_prelude
        { likes := true, blosxom := false, dirs := false, hostdirs := false,
          image_names := "o", resume := true, ignore_diffopt := true }
        (some { likes := some false, blosxom := some false, dirs := some false,
                hostdirs := some false, image_names := some "o" })
        (Except.ok ())).1 = [] ∧
    (backup_prelude
        { likes := true, blosxom := false, dirs := false, hostdirs := false,
          image_names := "o", resume := true, ignore_diffopt := true }
        (some { likes := some false, blosxom := some false, dirs := some false,
                hostdirs := some false, image_names := some "o" })
        (Except.ok ())).2.isSome = true :=
  mustmatch_mismatch_fatal
    { likes := true, blosxom := false, dirs := false, hostdirs := false,
      image_names := "o", resume := false, ignore_diffopt := false }
    { likes := true, blosxom := false, dirs := false, hostdirs := false,
      image_names := "o", resume := true, ignore_diffopt := true }
    { likes := some false, blosxom := some false, dirs := some false,
      hostdirs := some false, image_names := some "o" }
    rfl rfl rfl rfl rfl (by decide) (Except.ok ()) (Except.ok ())

/-! ## Resume cursor computation (claim C5)

On `--continue` (resume) or over an incomplete archive,
`process_existing_backup` scans the saved post files.  In likes mode it
opens every file and takes `min(get_post_timestamp(post) for post ...)`;
otherwise it takes the file with the minimal numeric id
(`min(post_glob, key=...)`) and opens only that one, returning ITS
timestamp.  In incremental mode, `backup` computes `ident_max`: the
maximum timestamp over all files (likes; every file opened, with the
may-take-a-while warning) or the maximum id from the file names (non-likes;
no file opened). -/

/-- A saved post file: the numeric id from the file name and the timestamp
stored inside the file (what `get_post_timestamp` returns). -/
structure SavedPost where
  ident : Nat
  timestamp : Int
  deriving DecidableEq

/-- Python `min(post_glob, key=ident)`: the first element with minimal id. -/
def min_by_ident (p : SavedPost) (rest : List SavedPost) : SavedPost :=
  rest.foldl (fun acc q => if q.ident < acc.ident then q else acc) p

/-- Python `min` over all stored timestamps. -/
def min_timestamp (p : SavedPost) (rest : List SavedPost) : Int :=
  (rest.map SavedPost.timestamp).foldl min p.timestamp

/-- Python `max` over all stored timestamps. -/
def max_timestamp (p : SavedPost) (rest : List SavedPost) : Int :=
  (rest.map SavedPost.timestamp).foldl max p.timestamp

/-- Python `max` over the ids from the file names. -/
def max_ident (p : SavedPost) (rest : List SavedPost) : Nat :=
  (rest.map SavedPost.ident).foldl max p.ident

/-- Result of a cursor computation: the cursor, the ids of the post files
opened (the `get_post_timestamp` calls), and whether the may-take-a-while
warning was issued. -/
structure CursorCalc where
  cursor : Option Int
  opened : List Nat
  slow_warning : Bool
  deriving DecidableEq

/-- The oldest_tstamp computation of `process_existing_backup`
(lines 646-666). -/
def resume_cursor (likes resume complete_backup : Bool)
    (post_glob : List SavedPost) : Except String CursorCalc :=
  if resume ∨ ¬ complete_backup then
    if ¬ resume then Except.ok { cursor := none, opened := [], slow_warning := false }
    else
      match post_glob with
      | [] => Except.error ("Cannot continue empty backup")
      | p :: rest =>
        if likes then
          Except.ok { cursor := some (min_timestamp p rest),
                      opened := (p :: rest).map SavedPost.ident, slow_warning := true }
        else
          Except.ok { cursor := some (min_by_ident p rest).timestamp,
                      opened := [(min_by_ident p rest).ident], slow_warning := false }
  else Except.ok { cursor := none, opened := [], slow_warning := false }

/-- The ident_max computation of `TumblrBackup.backup` (lines 733-745). -/
def incremental_cursor (likes incremental : Bool)
    (post_glob : List SavedPost) : CursorCalc :=
  if incremental then
    match post_glob with
    | [] => { cursor := none, opened := [], slow_warning := false }
    | p :: rest =>
      if likes then
        { cursor := some (max_timestamp p rest),
          opened := (p :: rest).map SavedPost.ident, slow_warning := true }
      else
        { cursor := some ((max_ident p rest : Nat) : Int), opened := [],
          slow_warning := false }
  else { cursor := none, opened := [], slow_warning := false }

/-- A left fold of `min` is a lower bound of the seed and the list. -/
theorem foldl_min_le {α : Type} [LinearOrder α] (l : List α) (x : α) :
    l.foldl min x ≤ x ∧ ∀ y ∈ l, l.foldl min x ≤ y := by
  induction l generalizing x with
  | nil => exact ⟨le_rfl, by simp⟩
  | cons a l ih =>
    simp only [List.foldl_cons]
    refine ⟨le_trans (ih (min x a)).1 (min_le_left x a), ?_⟩
    intro y hy
    rcases List.mem_cons.mp hy with h | h
    · subst h
      exact le_trans (ih (min x y)).1 (min_le_right x y)
    · exact (ih (min x a)).2 y h

/-- A left fold of `min` is the seed or an element of the list. -/
theorem foldl_min_eq_or_mem {α : Type} [LinearOrder α] (l : List α) (x : α) :
    l.foldl min x = x ∨ l.foldl min x ∈ l := by
  induction l generalizing x with
  | nil => exact Or.inl rfl
  | cons a l ih =>
    simp only [List.foldl_cons]
    rcases ih (min x a) with h | h
    · rcases min_choice x a with hm | hm
      · exact Or.inl (by rw [h, hm])
      · exact Or.inr (by rw [h, hm]; exact List.mem_cons_self a l)
    · exact Or.inr (List.mem_cons_of_mem a h)

/-- A left fold of `max` is an upper bound of the seed and the list. -/
theorem foldl_max_le {α : Type} [LinearOrder α] (l : List α) (x : α) :
    x ≤ l.foldl max x ∧ ∀ y ∈ l, y ≤ l.foldl max x := by
  induction l generalizing x with
  | nil => exact ⟨le_rfl, by simp⟩
  | cons a l ih =>
    simp only [List.foldl_cons]
    refine ⟨le_trans (le_max_left x a) (ih (max x a)).1, ?_⟩
    intro y hy
    rcases List.mem_cons.mp hy with h | h
    · subst h
      exact le_trans (le_max_right x y) (ih (max x y)).1
    · exact (ih (max x a)).2 y h

/-- The first-minimal element returned by `min_by_ident` belongs to the
list and has the minimal id. -/
theorem min_by_ident_spec : ∀ (rest : List SavedPost) (p : SavedPost),
    min_by_ident p rest ∈ p :: rest ∧
    ∀ q ∈ p :: rest, (min_by_ident p rest).ident ≤ q.ident := by
  intro rest
  induction rest with
  | nil =>
    intro p
    exact ⟨List.mem_cons_self _ _, by simp [min_by_ident]⟩
  | cons r rest ih =>
    intro p
    by_cases hr : r.ident < p.ident
    · have hstep : min_by_ident p (r :: rest) = min_by_ident r rest := by
        simp [min_by_ident, hr]
      obtain ⟨hm, hb⟩ := ih r
      rw [hstep]
      constructor
      · exact List.mem_cons_of_mem _ hm
      · intro q hq
        rcases List.mem_cons.mp hq with h | h
        · subst h
          exact le_trans (hb r (List.mem_cons_self _ _)) (le_of_lt hr)
        · exact hb q h
    · have hstep : min_by_ident p (r :: rest) = min_by_ident p rest := by
        simp [min_by_ident, hr]
      obtain ⟨hm, hb⟩ := ih p
      rw [hstep]
      constructor
      · rcases List.mem_cons.mp hm with h | h
        · rw [h]
          exact List.mem_cons_self _ _
        · exact List.mem_cons_of_mem _ (List.mem_cons_of_mem _ h)
      · intro q hq
        rcases List.mem_cons.mp hq with h | h
        · subst h
          exact hb q (List.mem_cons_self _ _)
        · rcases List.mem_cons.mp h with h2 | h2
          · subst h2
            exact le_trans (hb p (List.mem_cons_self _ _)) (not_lt.mp hr)
          · exact hb q (List.mem_cons_of_mem _ h2)

/-- C5 (amended): on resume in likes mode the cursor is the minimum
timestamp over all saved posts, every file is opened and the slow-path
warning is issued; on resume in non-likes mode the cursor is the timestamp
of the saved post with the minimal id (only that file is opened); resuming
an empty archive is a fatal error; incremental mode yields the maximum
saved timestamp (likes; every file opened, slow-path warning) or the
maximum saved id (non-likes; no file opened). -/
theorem resume_cursor_spec (complete : Bool) (p : SavedPost) (rest : List SavedPost) :
    (resume_cursor true true complete (p :: rest)
        = Except.ok { cursor := some (min_timestamp p rest),
                      opened := (p :: rest).map SavedPost.ident, slow_warning := true } ∧
      (∀ q ∈ p :: rest, min_timestamp p rest ≤ q.timestamp) ∧
      (∃ q ∈ p :: rest, min_timestamp p rest = q.timestamp)) ∧
    (resume_cursor false true complete (p :: rest)
        = Except.ok { cursor := some (min_by_ident p rest).timestamp,
                      opened := [(min_by_ident p rest).ident], slow_warning := false } ∧
      min_by_ident p rest ∈ p :: rest ∧
      (∀ q ∈ p :: rest, (min_by_ident p rest).ident ≤ q.ident)) ∧
    (∀ likes, resume_cursor likes true complete []
        = Except.error ("Cannot continue empty backup")) ∧
    (incremental_cursor true true (p :: rest)
        = { cursor := some (max_timestamp p rest),
            opened := (p :: rest).map SavedPost.ident,
            slow_warning := true } ∧
      (∀ q ∈ p :: rest, q.timestamp ≤ max_timestamp p rest)) ∧
    (incremental_cursor false true (p :: rest)
        = { cursor := some ((max_ident p rest : Nat) : Int), opened := [],
            slow_warning := false } ∧
      (∀ q ∈ p :: rest, q.ident ≤ max_ident p rest)) := by
  refine ⟨⟨by simp [resume_cursor], ?_, ?_⟩,
          ⟨by simp [resume_cursor], (min_by_ident_spec rest p).1, (min_by_ident_spec rest p).2⟩,
          fun likes => by simp [resume_cursor],
          ⟨by simp [incremental_cursor], ?_⟩,
          ⟨by simp [incremental_cursor], ?_⟩⟩
  · intro q hq
    rcases List.mem_cons.mp hq with h | h
    · subst h
      exact (foldl_min_le (rest.map SavedPost.timestamp) q.timestamp).1
    · exact (foldl_min_le (rest.map SavedPost.timestamp) p.timestamp).2
        q.timestamp (List.mem_map_of_mem SavedPost.timestamp h)
  · rcases foldl_min_eq_or_mem (rest.map SavedPost.timestamp) p.timestamp with h | h
    · exact ⟨p, List.mem_cons_self _ _, h⟩
    · rcases List.mem_map.mp h with ⟨q, hq, hqe⟩
      exact ⟨q, List.mem_cons_of_mem _ hq, hqe.symm⟩
  · intro q hq
    rcases List.mem_cons.mp hq with h | h
    · subst h
      exact (foldl_max_le (rest.map SavedPost.timestamp) q.timestamp).1
    · exact (foldl_max_le (rest.map SavedPost.timestamp) p.timestamp).2
        q.timestamp (List.mem_map_of_mem SavedPost.timestamp h)
  · intro q hq
    rcases List.mem_cons.mp hq with h | h
    · subst h
      exact (foldl_max_le (rest.map SavedPost.ident) q.ident).1
    · exact (foldl_max_le (rest.map SavedPost.ident) p.ident).2
        q.ident (List.mem_map_of_mem SavedPost.ident h)

/-- C5 counterexample: resuming a non-likes archive whose minimum-id post
is not the oldest one yields the timestamp of the minimum-id post (500),
not the minimum timestamp over all saved posts (100). -/
theorem resume_cursor_not_min_timestamp :
    resume_cursor false true false
        [{ ident := 3, timestamp := 500 }, { ident := 5, timestamp := 100 }]
      = Except.ok { cursor := some 500, opened := [3], slow_warning := false } ∧
    min_timestamp { ident := 3, timestamp := 500 } [{ ident := 5, timestamp := 100 }] = 100 ∧
    (500 : Int) ≠ 100 := by
  refine ⟨rfl, ?_, by decide⟩
  simp [min_timestamp]

/-- Witness for C5 at concrete inputs: a likes resume opens both files and
returns the minimum timestamp; a non-likes incremental run returns the
maximum id without opening any file. -/
theorem resume_cursor_spec_witness :
    resume_cursor true true false
        [{ ident := 7, timestamp := 50 }, { ident := 9, timestamp := 20 }]
      = Except.ok { cursor := some 20, opened := [7, 9], slow_warning := true } ∧
    incremental_cursor false true
        [{ ident := 7, timestamp := 50 }, { ident := 9, timestamp := 20 }]
      = { cursor := some 9, opened := [], slow_warning := false } := by
  constructor
  · have h := (resume_cursor_spec false { ident := 7, timestamp := 50 }
      [{ ident := 9, timestamp := 20 }]).1.1
    simpa [min_timestamp] using h
  · have h := (resume_cursor_spec false { ident := 7, timestamp := 50 }
      [{ ident := 9, timestamp := 20 }]).2.2.2.2.1
    simpa [max_ident] using h

/-! ## The worker loop and save_post (claim C7)

`ThreadPool.handler` runs each Work Item in an inner retry loop: an
`OSError` with errno ENOSPC signals the disk-full condition and retries
the same item (the `continue`); any other exception is re-raised, which
leaves the `while True` worker loop entirely (the `finally` still marks
the task done) and terminates that worker thread; a normal return with
`success = False` sets the pool error flag and the worker continues with
the next item.  `TumblrPost.save_post` performs the JSON write OUTSIDE its
try block (so its exceptions escape to the handler) and catches every
exception of the HTML write, returning False. -/

/-- The kind of a Python exception, as the handler distinguishes them. -/
inductive ExcKind where
  | enospc
  | otherExc
  deriving DecidableEq

/-- What one call of `work()` does: return a success flag, or raise. -/
inductive WorkOutcome where
  | ok (success : Bool)
  | raises (k : ExcKind)
  deriving DecidableEq

/-- Result of the inner retry loop of `ThreadPool.handler` on one Work
Item, given the outcomes of the successive attempts: the item completed
with a flag, or a non-ENOSPC exception propagated; in both cases the
number of disk-full signals raised is recorded.  `none` when every
modelled attempt hit ENOSPC (the real loop would still be retrying). -/
inductive ExecResult where
  | completed (success : Bool) (enospc_signals : Nat)
  | raised (enospc_signals : Nat)
  deriving DecidableEq

/-- The inner `while True` execution loop of `ThreadPool.handler`
(threading.py lines 99-107). -/
def exec_work : List WorkOutcome → Nat → Option ExecResult
  | [], _ => none
  | o :: rest, n =>
    match o with
    | WorkOutcome.ok s => some (ExecResult.completed s n)
    | WorkOutcome.raises ExcKind.otherExc => some (ExecResult.raised n)
    | WorkOutcome.raises ExcKind.enospc => exec_work rest (n + 1)

/-- Whether the worker loop survives the item. -/
inductive WorkerFate where
  | continues
  | terminated
  deriving DecidableEq

/-- Effect of one executed item on the worker and the pool error flag
(threading.py lines 108-111): a False return sets `self.errors`; a raised
exception propagates out of the worker loop and the flag is untouched. -/
def worker_after (r : ExecResult) (errors : Bool) : WorkerFate × Bool :=
  match r with
  | ExecResult.completed s _ => (WorkerFate.continues, errors || ! s)
  | ExecResult.raised _ => (WorkerFate.terminated, errors)

/-- One attempt of `TumblrPost.save_post`: whether the JSON sidecar write
runs (`options.json and not options.reuse_json`), and the exceptions the
two writes would raise. -/
structure SavePostRun where
  json_enabled : Bool
  json_write_exc : Option ExcKind
  html_write_exc : Option ExcKind
  deriving DecidableEq

/-- Model of `TumblrPost.save_post` (posts/tumblr.py lines 524-537): the
JSON write is outside the try block, so its exceptions propagate; any
exception of the HTML write (ENOSPC included) is caught and turns into a
False return. -/
def save_post (r : SavePostRun) : WorkOutcome :=
  if r.json_enabled then
    match r.json_write_exc with
    | some k => WorkOutcome.raises k
    | none =>
      match r.html_write_exc with
      | some _ => WorkOutcome.ok false
      | none => WorkOutcome.ok true
  else
    match r.html_write_exc with
    | some _ => WorkOutcome.ok false
    | none => WorkOutcome.ok true

/-- The handler running a save_post Work Item through its retry loop. -/
def exec_save_post (attempts : List SavePostRun) : Option ExecResult :=
  exec_work (attempts.map save_post) 0

/-- C7 (amended): an ENOSPC escaping the item raises the disk-full signal
and the same item is retried, once per ENOSPC, until an attempt returns —
the item is never lost; an item returning False sets the pool error flag
and the worker continues; but an uncaught non-ENOSPC error terminates the
worker thread and leaves the pool error flag unchanged.  In `save_post`
only the JSON write can let an exception escape; HTML-write failures are
caught and become a False return. -/
theorem worker_errors_spec (n : Nat) (s : Bool) (errors : Bool) (r : SavePostRun) :
    exec_work (List.replicate n (WorkOutcome.raises ExcKind.enospc) ++ [WorkOutcome.ok s]) 0
      = some (ExecResult.completed s n) ∧
    worker_after (ExecResult.completed false n) errors = (WorkerFate.continues, true) ∧
    worker_after (ExecResult.completed true n) errors = (WorkerFate.continues, errors) ∧
    worker_after (ExecResult.raised n) errors = (WorkerFate.terminated, errors) ∧
    (∀ k, save_post r = WorkOutcome.raises k →
      r.json_enabled = true ∧ r.json_write_exc = some k) := by
  refine ⟨?_, by simp [worker_after], by simp [worker_after], rfl, ?_⟩
  · have key : ∀ (m j : Nat),
        exec_work (List.replicate m (WorkOutcome.raises ExcKind.enospc) ++ [WorkOutcome.ok s]) j
          = some (ExecResult.completed s (j + m)) := by
      intro m
      induction m with
      | zero => intro j; simp [exec_work]
      | succ m ih =>
        intro j
        simp only [List.replicate_succ, List.cons_append, exec_work]
        have harith : j + 1 + m = j + (m + 1) := by omega
        rw [List.append_eq, ih (j + 1), harith]
    simpa using key n 0
  · intro k hk
    rcases hr : r.json_enabled with _ | _
    · rcases hj : r.html_write_exc with _ | k2 <;> simp [save_post, hr, hj] at hk
    · rcases hj : r.json_write_exc with _ | k2
      · rcases hh : r.html_write_exc with _ | k3 <;> simp [save_post, hr, hj, hh] at hk
      · simp [save_post, hr, hj] at hk
        subst hk
        exact ⟨rfl, rfl⟩

/-- C7 counterexample: a Work Item whose execution raises a non-ENOSPC
error (here save_post with the JSON write failing) leaves the handler with
a propagating exception: the worker thread terminates and the pool error
flag stays False, contradicting the claim that such an error sets the
pool-level error flag while the worker loop continues with the next item. -/
theorem worker_uncaught_error_kills_thread :
    exec_save_post
        [{ json_enabled := true, json_write_exc := some ExcKind.otherExc,
           html_write_exc := none }]
      = some (ExecResult.raised 0) ∧
    worker_after (ExecResult.raised 0) false = (WorkerFate.terminated, false) ∧
    (WorkerFate.terminated, false) ≠ (WorkerFate.continues, true) := by
  exact ⟨rfl, rfl, by decide⟩

/-- Witness for C7 at concrete inputs: an item that hits ENOSPC twice and
then succeeds completes with two disk-full signals and is not lost, and an
item returning False sets the error flag with the worker continuing. -/
theorem worker_errors_spec_witness :
    exec_work (List.replicate 2 (WorkOutcome.raises ExcKind.enospc) ++ [WorkOutcome.ok true]) 0
      = some (ExecResult.completed true 2) ∧
    worker_after (ExecResult.completed false 0) false = (WorkerFate.continues, true) :=
  ⟨(worker_errors_spec 2 true false
      { json_enabled := false, json_write_exc := none, html_write_exc := none }).1,
   (worker_errors_spec 0 true false
      { json_enabled := false, json_write_exc := none, html_write_exc := none }).2.1⟩

/-! ## The rate-limit handler (claim C8)

`ApiParser._ratelimit_sleep` inspects the 429 response headers: if
X-Ratelimit-Perday-Remaining equals the string 0, it raises RuntimeError
naming the resume time regardless of whether the daily reset header
parses; otherwise a missing or unparsable X-Ratelimit-Perhour-Reset
returns False (no retry); a negative reset warns and returns True without
sleeping; a reset above 3600 seconds raises RuntimeError; otherwise the
thread sleeps `reset + 1` seconds (the source comment: one extra second to
be sure the reset has passed) and returns True.  `_get_resp` retries the
request after a True return while `try_count < TRY_LIMIT`.  Header values
are modelled as `Option (Option Int)`: absent, present but non-numeric,
or the parsed number. -/

/-- The 429 response headers read by `_ratelimit_sleep`. -/
structure RLHeaders where
  perday_remaining : Option String
  perday_reset : Option (Option Int)
  perhour_reset : Option (Option Int)
  deriving DecidableEq

/-- Outcome of `_ratelimit_sleep`: a RuntimeError (daily quota exhausted,
or an hourly reset above one hour), or a return value together with the
number of seconds slept. -/
inductive RLResult where
  | fatal (daily : Bool)
  | returns (retry : Bool) (slept : Int)
  deriving DecidableEq

/-- Model of `ApiParser._ratelimit_sleep` (api_parser.py lines 223-266). -/
def ratelimit_sleep (h : RLHeaders) : RLResult :=
  if h.perday_remaining = some ("0") then RLResult.fatal true
  else
    match h.perhour_reset with
    | none => RLResult.returns false 0
    | some none => RLResult.returns false 0
    | some (some d) =>
      if d < 0 then RLResult.returns true 0
      else if d > 3600 then RLResult.fatal false
      else RLResult.returns true (d + 1)

/-- TRY_LIMIT from ApiParser. -/
def TRY_LIMIT : Nat := 2

/-- The 429 branch of `_get_resp` (lines 213-216): retry when the try
count is below TRY_LIMIT and `_ratelimit_sleep` returned True. -/
def retry_after_429 (try_count : Nat) (r : RLResult) : Bool :=
  decide (try_count < TRY_LIMIT) &&
    (match r with
     | RLResult.returns b _ => b
     | RLResult.fatal _ => false)

/-- C8 (amended): a daily-quota-remaining header equal to 0 is fatal; with
no (or an unparsable) hourly reset header there is no sleep and no retry;
a negative hourly reset retries without sleeping; an hourly reset of at
most one hour sleeps for the reset duration PLUS ONE second and the first
retry is taken; an hourly reset above one hour is fatal instead of
sleeping. -/
theorem ratelimit_sleep_spec (h : RLHeaders) (d : Int) :
    (h.perday_remaining = some ("0") → ratelimit_sleep h = RLResult.fatal true) ∧
    (h.perday_remaining ≠ some ("0") →
      (h.perhour_reset = none → ratelimit_sleep h = RLResult.returns false 0) ∧
      (h.perhour_reset = some none → ratelimit_sleep h = RLResult.returns false 0) ∧
      (h.perhour_reset = some (some d) →
        (d < 0 → ratelimit_sleep h = RLResult.returns true 0) ∧
        (0 ≤ d → d ≤ 3600 → ratelimit_sleep h = RLResult.returns true (d + 1) ∧
          retry_after_429 1 (ratelimit_sleep h) = true) ∧
        (3600 < d → ratelimit_sleep h = RLResult.fatal false))) := by
  constructor
  · intro hd
    simp [ratelimit_sleep, hd]
  · intro hd
    refine ⟨?_, ?_, ?_⟩
    · intro hh
      simp [ratelimit_sleep, hd, hh]
    · intro hh
      simp [ratelimit_sleep, hd, hh]
    · intro hh
      refine ⟨?_, ?_, ?_⟩
      · intro hneg
        simp [ratelimit_sleep, hd, hh, hneg]
      · intro hpos hle
        have h1 : ¬ d < 0 := not_lt.mpr hpos
        have h2 : ¬ d > 3600 := not_lt.mpr hle
        constructor
        · simp [ratelimit_sleep, hd, hh, h1, h2]
        · simp [ratelimit_sleep, retry_after_429, TRY_LIMIT, hd, hh, h1, h2]
      · intro hgt
        have h1 : ¬ d < 0 := not_lt.mpr (le_trans (by norm_num) (le_of_lt hgt))
        simp [ratelimit_sleep, hd, hh, h1, hgt]

/-- C8 counterexample: an hourly reset of 10 seconds makes the thread
sleep 11 seconds, more than the advertised reset duration, contradicting
the claim that the thread sleeps for at most that duration. -/
theorem ratelimit_sleeps_past_reset :
    ratelimit_sleep
        { perday_remaining := none, perday_reset := none, perhour_reset := some (some 10) }
      = RLResult.returns true 11 ∧
    ¬ ((11 : Int) ≤ 10) := by
  exact ⟨rfl, by decide⟩

/-- Witness for C8 at concrete inputs: a zero daily remaining header is
fatal; a 600 second hourly reset sleeps 601 seconds and is retried; a
7200 second hourly reset is fatal. -/
theorem ratelimit_sleep_spec_witness :
    ratelimit_sleep
        { perday_remaining := some ("0"), perday_reset := some none, perhour_reset := none }
      = RLResult.fatal true ∧
    ratelimit_sleep
        { perday_remaining := none, perday_reset := none, perhour_reset := some (some 600) }
      = RLResult.returns true 601 ∧
    retry_after_429 1 (ratelimit_sleep
        { perday_remaining := none, perday_reset := none, perhour_reset := some (some 600) })
      = true ∧
    ratelimit_sleep
        { perday_remaining := none, perday_reset := none, perhour_reset := some (some 7200) }
      = RLResult.fatal false := by
  refine ⟨?_, ?_, ?_, ?_⟩
  · exact (ratelimit_sleep_spec
      { perday_remaining := some ("0"), perday_reset := some none, perhour_reset := none }
      0).1 rfl
  · exact (((ratelimit_sleep_spec
      { perday_remaining := none, perday_reset := none, perhour_reset := some (some 600) }
      600).2 (by simp)).2.2 rfl).2.1 (by decide) (by decide) |>.1
  · exact (((ratelimit_sleep_spec
      { perday_remaining := none, perday_reset := none, perhour_reset := some (some 600) }
      600).2 (by simp)).2.2 rfl).2.1 (by decide) (by decide) |>.2
  · exact (((ratelimit_sleep_spec
      { perday_remaining := none, perday_reset := none, perhour_reset := some (some 7200) }
      7200).2 (by simp)).2.2 rfl).2.2 (by decide)

/-! ## Media download deduplication (claim C9)

`TumblrPost.download_media` guards the existence check and the download
with the `downloading_media` set under `downloading_media_cond`: a thread
waits while its destination path is in the set, atomically adds it, runs
`_download_media_inner` (existence check, then `wget_retrieve` only when
the file is absent; a `WGError` leaves no file), and in a finally block
removes the path and notifies.  We model each thread of the pool as an
automaton over this protocol (with no previous archive, so `cpy_res` is
False per lines 363-364) and the shared state as the `downloading` set
plus the set of media files present on disk. -/

/-- Position of one thread inside `download_media`. -/
inductive DLPc where
  | idle
  | entered
  | fetching
  | releasing
  | dlDone
  deriving DecidableEq

/-- One worker thread: its destination media path, its position, and
whether it has performed a network download. -/
structure DLThread where
  path : String
  pc : DLPc
  downloaded : Bool
  deriving DecidableEq

/-- The shared state: the threads, the `downloading_media` set, and the
media files present on disk. -/
structure DLState where
  threads : List DLThread
  downloading : List String
  fs : List String
  deriving DecidableEq

/-- The thread is between the add and the remove on the dedup set. -/
def inCS (pc : DLPc) : Prop :=
  pc = DLPc.entered ∨ pc = DLPc.fetching ∨ pc = DLPc.releasing

/-- One transition of the protocol.  `enter` is the atomic
wait-until-absent-then-add of lines 348-351; `checkPresent` and
`checkAbsent` are the `os.path.exists` check of `_download_media_inner`;
`fetchOk` and `fetchFail` are `wget_retrieve` succeeding (file created) or
raising `WGError` (no file); `release` is the finally block removing the
path and notifying. -/
inductive DLStep : DLState → DLState → Prop where
  | enter (s : DLState) (i : Nat) (t : DLThread) :
      s.threads[i]? = some t → t.pc = DLPc.idle → t.path ∉ s.downloading →
      DLStep s { threads := s.threads.set i { t with pc := DLPc.entered },
                 downloading := t.path :: s.downloading, fs := s.fs }
  | checkPresent (s : DLState) (i : Nat) (t : DLThread) :
      s.threads[i]? = some t → t.pc = DLPc.entered → t.path ∈ s.fs →
      DLStep s { s with threads := s.threads.set i { t with pc := DLPc.releasing } }
  | checkAbsent (s : DLState) (i : Nat) (t : DLThread) :
      s.threads[i]? = some t → t.pc = DLPc.entered → t.path ∉ s.fs →
      DLStep s { s with threads := s.threads.set i { t with pc := DLPc.fetching } }
  | fetchOk (s : DLState) (i : Nat) (t : DLThread) :
      s.threads[i]? = some t → t.pc = DLPc.fetching →
      DLStep s { threads := s.threads.set i
                   { t with pc := DLPc.releasing, downloaded := true },
                 downloading := s.downloading, fs := t.path :: s.fs }
  | fetchFail (s : DLState) (i : Nat) (t : DLThread) :
      s.threads[i]? = some t → t.pc = DLPc.fetching →
      DLStep s { s with threads := s.threads.set i { t with pc := DLPc.releasing } }
  | release (s : DLState) (i : Nat) (t : DLThread) :
      s.threads[i]? = some t → t.pc = DLPc.releasing →
      DLStep s { threads := s.threads.set i { t with pc := DLPc.dlDone },
                 downloading := s.downloading.erase t.path, fs := s.fs }

/-- Initial states: nothing is being downloaded, every thread is before
its critical section and has downloaded nothing; the disk may already
hold any files. -/
def DLInit (s : DLState) : Prop :=
  s.downloading = [] ∧ ∀ t ∈ s.threads, t.pc = DLPc.idle ∧ t.downloaded = false

/-- The inductive invariant: threads in the critical section hold
pairwise distinct paths, and each such path is in the dedup set. -/
def DLInv (s : DLState) : Prop :=
  (∀ (i j : Nat) (ti tj : DLThread),
    s.threads[i]? = some ti → s.threads[j]? = some tj → i ≠ j →
    inCS ti.pc → inCS tj.pc → ti.path ≠ tj.path) ∧
  (∀ (i : Nat) (ti : DLThread),
    s.threads[i]? = some ti → inCS ti.pc → ti.path ∈ s.downloading)

/-- Reading an index of a list updated at one position. -/
theorem set_getElem?_cases {α : Type} (l : List α) (i j : Nat) (a t : α)
    (h : (l.set i a)[j]? = some t) :
    (i = j ∧ t = a) ∨ (i ≠ j ∧ l[j]? = some t) := by
  by_cases hij : i = j
  · subst hij
    by_cases hlen : i < l.length
    · rw [List.getElem?_set_self hlen] at h
      exact Or.inl ⟨rfl, (Option.some.injEq a t ▸ h).symm⟩
    · rw [List.set_eq_of_length_le (le_of_not_lt hlen)] at h
      rw [List.getElem?_eq_none (le_of_not_lt hlen)] at h
      cases h
  · exact Or.inr ⟨hij, by rwa [List.getElem?_set_ne hij] at h⟩

/-- An index holding a value is in range. -/
theorem getElem?_lt_length {α : Type} {l : List α} {i : Nat} {a : α}
    (h : l[i]? = some a) : i < l.length := by
  by_contra hc
  rw [List.getElem?_eq_none (le_of_not_lt hc)] at h
  cases h

/-- The invariant is preserved when one in-section thread changes its
record without changing its path, the dedup set staying as it is. -/
theorem DLInv_internal (s : DLState) (i : Nat) (t t2 : DLThread)
    (ht : s.threads[i]? = some t) (hpath : t2.path = t.path) (hcs_old : inCS t.pc)
    (hinv : DLInv s) (fs2 : List String) :
    DLInv { threads := s.threads.set i t2, downloading := s.downloading, fs := fs2 } := by
  obtain ⟨hmx, hdl⟩ := hinv
  constructor
  · intro j k tj tk hj hk hjk hcj hck
    rcases set_getElem?_cases _ _ _ _ _ hj with ⟨hij, htj⟩ | ⟨hij, hj0⟩
    · subst hij
      subst htj
      rcases set_getElem?_cases _ _ _ _ _ hk with ⟨hik, htk⟩ | ⟨hik, hk0⟩
      · exact absurd hik hjk
      · rw [hpath]
        exact hmx i k t tk ht hk0 hjk hcs_old hck
    · rcases set_getElem?_cases _ _ _ _ _ hk with ⟨hik, htk⟩ | ⟨hik, hk0⟩
      · subst hik
        subst htk
        intro hcon
        rw [hpath] at hcon
        exact hmx j i tj t hj0 ht (Ne.symm hij) hcj hcs_old hcon
      · exact hmx j k tj tk hj0 hk0 hjk hcj hck
  · intro j tj hj hcj
    rcases set_getElem?_cases _ _ _ _ _ hj with ⟨hij, htj⟩ | ⟨hij, hj0⟩
    · subst htj
      rw [hpath]
      exact hdl i t ht hcs_old
    · exact hdl j tj hj0 hcj

/-- The invariant is preserved by every step of the protocol. -/
theorem DLInv_step (s s2 : DLState) (hstep : DLStep s s2) (hinv : DLInv s) : DLInv s2 := by
  cases hstep with
  | enter i t ht hpc hnin =>
    obtain ⟨hmx, hdl⟩ := hinv
    constructor
    · intro j k tj tk hj hk hjk hcj hck
      rcases set_getElem?_cases _ _ _ _ _ hj with ⟨hij, htj⟩ | ⟨hij, hj0⟩
      · subst hij
        subst htj
        rcases set_getElem?_cases _ _ _ _ _ hk with ⟨hik, htk⟩ | ⟨hik, hk0⟩
        · exact absurd hik hjk
        · intro hcon
          apply hnin
          have hkd := hdl k tk hk0 hck
          rw [show ({ t with pc := DLPc.entered } : DLThread).path = t.path from rfl] at hcon
          rw [hcon]
          exact hkd
      · rcases set_getElem?_cases _ _ _ _ _ hk with ⟨hik, htk⟩ | ⟨hik, hk0⟩
        · subst hik
          subst htk
          intro hcon
          apply hnin
          have hjd := hdl j tj hj0 hcj
          rw [show ({ t with pc := DLPc.entered } : DLThread).path = t.path from rfl] at hcon
          rw [← hcon]
          exact hjd
        · exact hmx j k tj tk hj0 hk0 hjk hcj hck
    · intro j tj hj hcj
      rcases set_getElem?_cases _ _ _ _ _ hj with ⟨hij, htj⟩ | ⟨hij, hj0⟩
      · subst htj
        exact List.mem_cons_self _ _
      · exact List.mem_cons_of_mem _ (hdl j tj hj0 hcj)
  | checkPresent i t ht hpc hfs =>
    exact DLInv_internal s i t { t with pc := DLPc.releasing } ht rfl (Or.inl hpc) hinv s.fs
  | checkAbsent i t ht hpc hfs =>
    exact DLInv_internal s i t { t with pc := DLPc.fetching } ht rfl (Or.inl hpc) hinv s.fs
  | fetchOk i t ht hpc =>
    exact DLInv_internal s i t { t with pc := DLPc.releasing, downloaded := true } ht rfl
      (Or.inr (Or.inl hpc)) hinv (t.path :: s.fs)
  | fetchFail i t ht hpc =>
    exact DLInv_internal s i t { t with pc := DLPc.releasing } ht rfl
      (Or.inr (Or.inl hpc)) hinv s.fs
  | release i t ht hpc =>
    obtain ⟨hmx, hdl⟩ := hinv
    constructor
    · intro j k tj tk hj hk hjk hcj hck
      rcases set_getElem?_cases _ _ _ _ _ hj with ⟨hij, htj⟩ | ⟨hij, hj0⟩
      · subst htj
        simp [inCS] at hcj
      · rcases set_getElem?_cases _ _ _ _ _ hk with ⟨hik, htk⟩ | ⟨hik, hk0⟩
        · subst htk
          simp [inCS] at hck
        · exact hmx j k tj tk hj0 hk0 hjk hcj hck
    · intro j tj hj hcj
      rcases set_getElem?_cases _ _ _ _ _ hj with ⟨hij, htj⟩ | ⟨hij, hj0⟩
      · subst htj
        simp [inCS] at hcj
      · have hmem := hdl j tj hj0 hcj
        by_cases hpe : tj.path = t.path
        · exact absurd hpe (hmx j i tj t hj0 ht (Ne.symm hij) hcj (Or.inr (Or.inr hpc)))
        · exact (List.mem_erase_of_ne hpe).mpr hmem

/-- Initial states satisfy the invariant. -/
theorem DLInv_init (s : DLState) (h0 : DLInit s) : DLInv s := by
  obtain ⟨hdl, hth⟩ := h0
  constructor
  · intro i j ti tj hi hj hij hci hcj
    have hpc := (hth ti (List.getElem?_mem hi)).1
    rw [hpc] at hci
    simp [inCS] at hci
  · intro i ti hi hci
    have hpc := (hth ti (List.getElem?_mem hi)).1
    rw [hpc] at hci
    simp [inCS] at hci

/-- The invariant holds in every reachable state. -/
theorem DLInv_reach (s0 s : DLState) (h0 : DLInit s0)
    (hr : Relation.ReflTransGen DLStep s0 s) : DLInv s := by
  induction hr with
  | refl => exact DLInv_init s0 h0
  | tail hab hbc ih => exact DLInv_step _ _ hbc ih

/-- A step never removes a file from disk. -/
theorem DLStep_fs_mono (s s2 : DLState) (h : DLStep s s2) (p : String)
    (hp : p ∈ s.fs) : p ∈ s2.fs := by
  cases h <;> first | exact hp | exact List.mem_cons_of_mem _ hp

/-- Files on disk persist along every execution. -/
theorem DLReach_fs_mono (s0 s : DLState) (hr : Relation.ReflTransGen DLStep s0 s)
    (p : String) (hp : p ∈ s0.fs) : p ∈ s.fs := by
  induction hr with
  | refl => exact hp
  | tail hab hbc ih => exact DLStep_fs_mono _ _ hbc p ih

/-- Thread i is committed to reuse: it is past its existence check, or it
is at the check with its file already on disk.  Such a thread will never
call `wget_retrieve`. -/
def reuse_locked (s : DLState) (i : Nat) : Prop :=
  ∃ t : DLThread, s.threads[i]? = some t ∧
    ((t.pc = DLPc.entered ∧ t.path ∈ s.fs) ∨ t.pc = DLPc.releasing ∨ t.pc = DLPc.dlDone)

/-- One step preserves reuse commitment and the downloaded flag of the
committed thread. -/
theorem reuse_locked_step (s s2 : DLState) (i : Nat) (hstep : DLStep s s2)
    (h : reuse_locked s i) :
    reuse_locked s2 i ∧
    ∀ t t2, s.threads[i]? = some t → s2.threads[i]? = some t2 →
      t2.downloaded = t.downloaded := by
  obtain ⟨t, ht, hcase⟩ := h
  cases hstep with
  | enter j tj htj hpc hnin =>
    by_cases hij : j = i
    · subst hij
      rw [ht] at htj
      cases htj
      rcases hcase with ⟨hc, _⟩ | hc | hc <;> rw [hpc] at hc <;> cases hc
    · have hsame : (s.threads.set j { tj with pc := DLPc.entered })[i]? = s.threads[i]? :=
        List.getElem?_set_ne hij
      refine ⟨⟨t, by rw [hsame]; exact ht, hcase⟩, ?_⟩
      intro t0 t20 h1 h2
      rw [hsame, h1] at h2
      cases h2
      rfl
  | checkPresent j tj htj hpc hfs =>
    by_cases hij : j = i
    · subst hij
      rw [ht] at htj
      cases htj
      have hlen : j < s.threads.length := getElem?_lt_length ht
      have hget : (s.threads.set j { t with pc := DLPc.releasing })[j]?
          = some { t with pc := DLPc.releasing } := List.getElem?_set_self hlen
      refine ⟨⟨{ t with pc := DLPc.releasing }, hget, Or.inr (Or.inl rfl)⟩, ?_⟩
      intro t0 t20 h1 h2
      rw [ht] at h1
      cases h1
      rw [hget] at h2
      cases h2
      rfl
    · have hsame : (s.threads.set j { tj with pc := DLPc.releasing })[i]? = s.threads[i]? :=
        List.getElem?_set_ne hij
      refine ⟨⟨t, by rw [hsame]; exact ht, hcase⟩, ?_⟩
      intro t0 t20 h1 h2
      rw [hsame, h1] at h2
      cases h2
      rfl
  | checkAbsent j tj htj hpc hfs =>
    by_cases hij : j = i
    · subst hij
      rw [ht] at htj
      cases htj
      rcases hcase with ⟨_, hc⟩ | hc | hc
      · exact absurd hc hfs
      · rw [hpc] at hc
        cases hc
      · rw [hpc] at hc
        cases hc
    · have hsame : (s.threads.set j { tj with pc := DLPc.fetching })[i]? = s.threads[i]? :=
        List.getElem?_set_ne hij
      refine ⟨⟨t, by rw [hsame]; exact ht, hcase⟩, ?_⟩
      intro t0 t20 h1 h2
      rw [hsame, h1] at h2
      cases h2
      rfl
  | fetchOk j tj htj hpc =>
    by_cases hij : j = i
    · subst hij
      rw [ht] at htj
      cases htj
      rcases hcase with ⟨hc, _⟩ | hc | hc <;> rw [hpc] at hc <;> cases hc
    · have hsame : (s.threads.set j
          { tj with pc := DLPc.releasing, downloaded := true })[i]? = s.threads[i]? :=
        List.getElem?_set_ne hij
      refine ⟨⟨t, by rw [hsame]; exact ht, ?_⟩, ?_⟩
      · rcases hcase with ⟨hc1, hc2⟩ | hc | hc
        · exact Or.inl ⟨hc1, List.mem_cons_of_mem _ hc2⟩
        · exact Or.inr (Or.inl hc)
        · exact Or.inr (Or.inr hc)
      · intro t0 t20 h1 h2
        rw [hsame, h1] at h2
        cases h2
        rfl
  | fetchFail j tj htj hpc =>
    by_cases hij : j = i
    · subst hij
      rw [ht] at htj
      cases htj
      rcases hcase with ⟨hc, _⟩ | hc | hc <;> rw [hpc] at hc <;> cases hc
    · have hsame : (s.threads.set j { tj with pc := DLPc.releasing })[i]? = s.threads[i]? :=
        List.getElem?_set_ne hij
      refine ⟨⟨t, by rw [hsame]; exact ht, hcase⟩, ?_⟩
      intro t0 t20 h1 h2
      rw [hsame, h1] at h2
      cases h2
      rfl
  | release j tj htj hpc =>
    by_cases hij : j = i
    · subst hij
      rw [ht] at htj
      cases htj
      have hlen : j < s.threads.length := getElem?_lt_length ht
      have hget : (s.threads.set j { t with pc := DLPc.dlDone })[j]?
          = some { t with pc := DLPc.dlDone } := List.getElem?_set_self hlen
      refine ⟨⟨{ t with pc := DLPc.dlDone }, hget, Or.inr (Or.inr rfl)⟩, ?_⟩
      intro t0 t20 h1 h2
      rw [ht] at h1
      cases h1
      rw [hget] at h2
      cases h2
      rfl
    · have hsame : (s.threads.set j { tj with pc := DLPc.dlDone })[i]? = s.threads[i]? :=
        List.getElem?_set_ne hij
      refine ⟨⟨t, by rw [hsame]; exact ht, hcase⟩, ?_⟩
      intro t0 t20 h1 h2
      rw [hsame, h1] at h2
      cases h2
      rfl

/-- Reuse commitment and the downloaded flag persist along execution. -/
theorem reuse_locked_reach (s s2 : DLState) (i : Nat)
    (hr : Relation.ReflTransGen DLStep s s2) (h : reuse_locked s i) :
    reuse_locked s2 i ∧
    ∀ t t2, s.threads[i]? = some t → s2.threads[i]? = some t2 →
      t2.downloaded = t.downloaded := by
  induction hr with
  | refl =>
    refine ⟨h, ?_⟩
    intro t t2 h1 h2
    rw [h1] at h2
    cases h2
    rfl
  | tail hab hbc ih =>
    obtain ⟨hrl, hdl⟩ := ih
    obtain ⟨hrl2, hdl2⟩ := reuse_locked_step _ _ i hbc hrl
    refine ⟨hrl2, ?_⟩
    intro t t2 h1 h2
    obtain ⟨tb, htb, _⟩ := hrl
    exact (hdl2 tb t2 htb h2).trans (hdl t tb h1 htb)

/-- C9: in every state reachable from an initial state, (1) at most one
thread is inside the critical section of `download_media` for a given
destination path (two in-section threads always hold distinct paths), so
the same media path is never fetched twice concurrently; (2) files on
disk persist; (3) a thread whose existence check runs with its file
already present (in particular a second waiter observing the first
download) is committed to reuse: from then on its downloaded flag never
changes, so it performs no download of its own. -/
theorem download_media_dedup (s0 s : DLState) (h0 : DLInit s0)
    (hr : Relation.ReflTransGen DLStep s0 s) :
    (∀ (i j : Nat) (ti tj : DLThread),
      s.threads[i]? = some ti → s.threads[j]? = some tj → i ≠ j →
      inCS ti.pc → inCS tj.pc → ti.path ≠ tj.path) ∧
    (∀ p, p ∈ s0.fs → p ∈ s.fs) ∧
    (∀ i, reuse_locked s i →
      ∀ s2, Relation.ReflTransGen DLStep s s2 →
        reuse_locked s2 i ∧
        ∀ t t2, s.threads[i]? = some t → s2.threads[i]? = some t2 →
          t2.downloaded = t.downloaded) :=
  ⟨(DLInv_reach s0 s h0 hr).1,
   fun p hp => DLReach_fs_mono s0 s hr p hp,
   fun i hi s2 hr2 => reuse_locked_reach s s2 i hr2 hi⟩

/-- Two threads racing for the same media path, file already on disk. -/
def s0w : DLState :=
  { threads := [{ path := "p", pc := DLPc.idle, downloaded := false },
                { path := "p", pc := DLPc.idle, downloaded := false }],
    downloading := [], fs := ["p"] }

/-- After thread 0 entered the critical section. -/
def s1w : DLState :=
  { threads := [{ path := "p", pc := DLPc.entered, downloaded := false },
                { path := "p", pc := DLPc.idle, downloaded := false }],
    downloading := ["p"], fs := ["p"] }

/-- After thread 0 observed the file present (reuse, no download). -/
def s2w : DLState :=
  { threads := [{ path := "p", pc := DLPc.releasing, downloaded := false },
                { path := "p", pc := DLPc.idle, downloaded := false }],
    downloading := ["p"], fs := ["p"] }

/-- Witness for C9 at concrete inputs: from the two-thread initial state,
after thread 0 enters and sees the file present, the theorem applied along
this concrete execution shows thread 0 stays committed to reuse; the file
remains on disk. -/
theorem download_media_dedup_witness :
    reuse_locked s2w 0 ∧ ("p") ∈ s2w.fs := by
  have hstep1 : DLStep s0w s1w :=
    DLStep.enter s0w 0 { path := "p", pc := DLPc.idle, downloaded := false }
      rfl rfl (by decide)
  have hstep2 : DLStep s1w s2w :=
    DLStep.checkPresent s1w 0 { path := "p", pc := DLPc.entered, downloaded := false }
      rfl rfl (by decide)
  have hlock : reuse_locked s1w 0 :=
    ⟨{ path := "p", pc := DLPc.entered, downloaded := false }, rfl,
      Or.inl ⟨rfl, by decide⟩⟩
  have h := (download_media_dedup s0w s1w ⟨rfl, by decide⟩
      (Relation.ReflTransGen.single hstep1)).2.2 0 hlock s2w
      (Relation.ReflTransGen.single hstep2)
  exact ⟨h.1, by decide⟩
